import Mathlib

/-!
Verification development for the MediVault retrieval pipeline
(`backend/app/services/`): a shallow embedding, in Lean 4, of the
vector store (`vector_store.py`), the text chunker (`text_chunker.py`)
and the RAG orchestrator (`rag_service.py`), together with theorems
about the behaviour the design document ascribes to them.

Modelling conventions:
* Python `str` values are Lean `String`s; character-level operations
  (`strip`, `rfind`, slicing, `lower`, `split`) are re-implemented over
  `List Char` because they must evaluate inside the Lean kernel.
* Python numbers flowing through chunk-metadata dictionaries are
  modelled by `PyVal`; floats carried inside metadata are represented
  as rationals (no float arithmetic is ever performed on them), and any
  non-scalar Python object (list, dict, None-like objects …) is
  represented opaquely by `PyVal.pobj` carrying its `str()` rendering.
* Embedding vectors are `List Int`: every claim below concerns counts,
  ordering and control flow, never floating-point rounding, so exact
  integer coordinates are a faithful stand-in for `float32` entries.
* Exceptions are explicit: a fallible operation returns `Except PyErr`
  or a `(Option PyErr) × state` pair (the state component records the
  mutations already committed when the exception escapes, exactly as
  the Python object state would).
* The FAISS flat L2 index is modelled by the list of stored vectors;
  `IndexFlatL2.search` returns the (squared-L2) nearest indices, ties
  broken by insertion order, which is modelled by a stable selection
  over `(distance, index)` in lexicographic order.
* The external collaborators (sentence-transformers embedder, Gemini
  generator, document reader) are opaque functions supplied through a
  `RAGEnv` record, mirroring §6 of the design document.
-/

set_option maxRecDepth 100000

namespace MediVault

/-- Model of Python runtime values that can appear in chunk/metadata
dictionaries: the four scalar types, `None`, and an opaque stand-in
`pobj` for any non-scalar object, carrying its `str()` rendering. -/
inductive PyVal where
  | pstr (s : String)
  | pint (n : Int)
  | pfloat (q : Rat)
  | pbool (b : Bool)
  | pnone
  | pobj (rendering : String)
deriving DecidableEq, Repr

/-- Model of a Python exception: `ValueError`, `TypeError` or a generic
`Exception`, each carrying its message (`str(e)`). -/
inductive PyErr where
  | valueError (msg : String)
  | typeError (msg : String)
  | exception (msg : String)
deriving DecidableEq, Repr

/-- The message of an exception, i.e. Python `str(e)`. -/
def PyErr.msg : PyErr → String
  | .valueError m => m
  | .typeError m => m
  | .exception m => m

/-- Decidable equality of `Except` results (used to evaluate the model
on concrete inputs). -/
instance {ε α : Type} [DecidableEq ε] [DecidableEq α] : DecidableEq (Except ε α)
  | .ok a, .ok b =>
    if h : a = b then .isTrue (by rw [h]) else .isFalse (fun hc => by cases hc; exact h rfl)
  | .error a, .error b =>
    if h : a = b then .isTrue (by rw [h]) else .isFalse (fun hc => by cases hc; exact h rfl)
  | .ok _, .error _ => .isFalse (fun hc => by cases hc)
  | .error _, .ok _ => .isFalse (fun hc => by cases hc)

/-- A Python dictionary with string keys, as an association list in
insertion order (Python 3.7+ dicts preserve insertion order). -/
abbrev PyDict : Type := List (String × PyVal)

/-- Python `d.get(k, default)`. -/
def dictGet (d : PyDict) (k : String) (dflt : PyVal) : PyVal :=
  match List.find? (fun kv => kv.1 = k) d with
  | some kv => kv.2
  | none => dflt

/-- Python `d[k] = v`: update in place if the key exists, else append. -/
def dictSet (d : PyDict) (k : String) (v : PyVal) : PyDict :=
  if List.any d (fun kv => kv.1 = k) then
    List.map (fun kv => if kv.1 = k then (k, v) else kv) d
  else
    List.append d [(k, v)]

/-- Python `d.update(m)`: set every key of `m` in `d`, in order. -/
def dictUpdate (d : PyDict) (m : PyDict) : PyDict :=
  List.foldl (fun acc kv => dictSet acc kv.1 kv.2) d m

/-- Python `str(value)` for the values we model.  The renderings of
floats follow Lean rational notation rather than Python float repr;
no claim below inspects the rendered text of a non-string value. -/
def pyStr : PyVal → String
  | .pstr s => s
  | .pint n => toString n
  | .pfloat q => toString q
  | .pbool b => if b then "True" else "False"
  | .pnone => "None"
  | .pobj rendering => rendering

/-- Coerce a modelled Python value to `str`, for call sites where the
source always passes a `str` (e.g. `chunk['text']` handed to the
embedder); falls back to `str(value)` on other values. -/
def asString : PyVal → String
  | .pstr s => s
  | v => pyStr v

/-- Python `isinstance(value, (str, int, float, bool))`, the scalar
check of `VectorStore.add_documents`. -/
def isScalar : PyVal → Bool
  | .pstr _ => true
  | .pint _ => true
  | .pfloat _ => true
  | .pbool _ => true
  | .pnone => false
  | .pobj _ => false

/-- Python `int(value)`.  `int` / `bool` convert exactly, floats
truncate toward zero, strings are parsed (raising `ValueError` when
unparsable), and `None` or any other object raises `TypeError`. -/
def pyToInt : PyVal → Except PyErr Int
  | .pint n => .ok n
  | .pbool b => .ok (if b then 1 else 0)
  | .pfloat q => .ok (if 0 ≤ q then q.floor else q.ceil)
  | .pstr s =>
    match (s.trim).toInt? with
    | some n => .ok n
    | none => .error (.valueError ("invalid literal for int() with base 10: " ++ s))
  | .pnone => .error (.typeError "int() argument must be a string, a bytes-like object or a real number, not NoneType")
  | .pobj _ => .error (.typeError "int() argument must be a string, a bytes-like object or a real number")

/-! String helpers over `List Char`, kernel-evaluable models of the
Python string operations used by the services. -/

/-- Python whitespace test used by `str.strip()` (ASCII subset). -/
def pyIsSpace (c : Char) : Bool := c.isWhitespace || c = '\x0b' || c = '\x0c'

/-- Python `str.strip()` on a character list. -/
def stripL (l : List Char) : List Char :=
  ((l.dropWhile pyIsSpace).reverse.dropWhile pyIsSpace).reverse

/-- Python slicing `s[a:b]` for `0 ≤ a ≤ b`. -/
def sliceL {α : Type} (l : List α) (a b : Nat) : List α := (l.take b).drop a

/-- Python `str.strip()`. -/
def pyStrip (s : String) : String := String.mk (stripL s.data)

/-- Python `str.lower()` (ASCII letters, which is all the services
compare). -/
def pyLower (s : String) : String := String.mk (s.data.map Char.toLower)

/-- Python `haystack.rfind(needle, start)`: the largest index `i ≥ start`
at which `needle` occurs in `haystack`, `none` when there is none. -/
def rfindFrom (l sub : List Char) (start : Nat) : Option Nat :=
  (List.range (l.length + 1)).foldl
    (fun acc i => if start ≤ i && sub.isPrefixOf (l.drop i) then some i else acc) none

/-- Python `needle in haystack` on strings (substring containment). -/
def containsSubL (l sub : List Char) : Bool :=
  (List.range (l.length + 1)).any (fun i => sub.isPrefixOf (l.drop i))

/-- Python `needle in haystack` on `String`. -/
def containsSub (s sub : String) : Bool := containsSubL s.data sub.data

/-- Python `s.split(sep)` restricted to a single-character separator. -/
def splitCharL (sep : Char) : List Char → List (List Char)
  | [] => [[]]
  | c :: cs =>
    let r := splitCharL sep cs
    if c = sep then [] :: r else (c :: r.headD []) :: r.tail

/-- Python `s.split(newline)`, yielding `String` lines. -/
def pySplitLines (s : String) : List String :=
  (splitCharL '\n' s.data).map String.mk

/-- Python `s.startswith(p)` for a single-character marker `p`. -/
def startsWithChar (s : String) (c : Char) : Bool := s.data.headD ' ' = c && s.data ≠ []

/-- Insertion of an element into a sorted list (stable: an element is
placed before the first existing element it compares `le` to). -/
def insertBy {α : Type} (le : α → α → Bool) (x : α) : List α → List α
  | [] => [x]
  | y :: ys => if le x y then x :: y :: ys else y :: insertBy le x ys

/-- Insertion sort by a boolean comparison. -/
def sortBy {α : Type} (le : α → α → Bool) : List α → List α
  | [] => []
  | x :: xs => insertBy le x (sortBy le xs)

/-! Model of `vector_store.py`. -/

/-- In-memory state of `VectorStore`: the FAISS `IndexFlatL2` contents
(`vectors`, in insertion order — `index.ntotal = vectors.length`) and
the parallel `metadata` list.  `dim` is `self.embedding_dim = 384`. -/
structure VectorStore where
  dim : Nat
  vectors : List (List Int)
  metadata : List PyDict
deriving DecidableEq, Repr

/-- The store produced by `VectorStore._create_new_index` (also the
state after `__init__` when no persisted index exists). -/
def empty_store : VectorStore := { dim := 384, vectors := [], metadata := [] }

/-- The invariant stated by the design document: the number of stored
vectors equals the number of metadata records. -/
def storeInv (st : VectorStore) : Prop := st.vectors.length = st.metadata.length

instance (st : VectorStore) : Decidable (storeInv st) := by unfold storeInv; infer_instance

/-- One metadata record as built inside the `for chunk in chunks` loop
of `VectorStore.add_documents`: the four core fields (`text` taken
verbatim, `source_file` through `str()`, the two counters through
`int()`, which can raise) followed by every additional chunk field,
kept when scalar and rendered through `str()` otherwise. -/
def metadata_entry (chunk : PyDict) : Except PyErr PyDict :=
  match pyToInt (dictGet chunk "chunk_index" (.pint 0)) with
  | .error e => .error e
  | .ok ci =>
    match pyToInt (dictGet chunk "total_chunks" (.pint 1)) with
    | .error e => .error e
    | .ok tc =>
      .ok ([("text", dictGet chunk "text" (.pstr "")),
            ("source_file", .pstr (pyStr (dictGet chunk "source_file" (.pstr "unknown")))),
            ("chunk_index", .pint ci),
            ("total_chunks", .pint tc)] ++
        (List.filter (fun kv : String × PyVal =>
            !(kv.1 = "text" || kv.1 = "source_file" || kv.1 = "chunk_index"
              || kv.1 = "total_chunks")) chunk).map
          (fun kv => (kv.1, if isScalar kv.2 then kv.2 else .pstr (pyStr kv.2))))

/-- The metadata-appending loop of `add_documents`: entries are
appended one at a time, so an `int()` coercion failure part-way leaves
the earlier appends committed and escapes as an exception. -/
def appendEntries (st : VectorStore) : List PyDict → (Option PyErr) × VectorStore
  | [] => (none, st)
  | c :: rest =>
    match metadata_entry c with
    | .error e => (some e, st)
    | .ok entry => appendEntries { st with metadata := st.metadata ++ [entry] } rest

/-- Whether `np.array(embeddings, dtype=float32)` yields a 2-d array:
true exactly when all rows have one common length (a ragged nested
list raises `ValueError` during array creation). -/
def allSameLength (l : List (List Int)) : Bool :=
  l.all (fun v => v.length = (l.headD []).length)

/-- `VectorStore.add_documents(chunks, embeddings)`.  Returns the
escaped exception (if any) together with the store state after the
call — mutations already committed before an exception are kept,
exactly as in the Python object. -/
def add_documents (st : VectorStore) (chunks : List PyDict) (embeddings : List (List Int)) :
    (Option PyErr) × VectorStore :=
  if chunks = [] ∨ embeddings = [] then
    (none, st)
  else if chunks.length ≠ embeddings.length then
    (some (.valueError ("Mismatch: " ++ toString chunks.length ++ " chunks but "
      ++ toString embeddings.length ++ " embeddings")), st)
  else if !allSameLength embeddings then
    (some (.valueError "setting an array element with a sequence (ragged nested sequences)"), st)
  else if (embeddings.headD []).length ≠ st.dim then
    (some (.valueError ("Embedding dimension mismatch: expected " ++ toString st.dim
      ++ ", got " ++ toString (embeddings.headD []).length)), st)
  else
    appendEntries { st with vectors := st.vectors ++ embeddings } chunks

/-- Squared L2 distance between two vectors (what `IndexFlatL2.search`
ranks by; FAISS reports squared distances). -/
def sqDist (q v : List Int) : Int :=
  ((q.zip v).map (fun p => (p.1 - p.2) * (p.1 - p.2))).sum

/-- Comparison used to model FAISS result ordering: ascending squared
distance, ties broken by the smaller (earlier-inserted) index. -/
def faissLe (vecs : List (List Int)) (q : List Int) (i j : Nat) : Bool :=
  sqDist q (vecs.getD i []) < sqDist q (vecs.getD j []) ||
    (sqDist q (vecs.getD i []) = sqDist q (vecs.getD j []) && i ≤ j)

/-- Model of `self.index.search(query, k)`: the `k` stored indices
nearest to `q`. -/
def faissTopIdx (vecs : List (List Int)) (q : List Int) (k : Nat) : List Nat :=
  (sortBy (faissLe vecs q) (List.range vecs.length)).take k

/-- Configured default for `top_k` (`config.TOP_K_CHUNKS`, default 3 in
`config.py`). -/
def TOP_K_CHUNKS : Nat := 3

/-- One search hit as assembled by `search_similar`: the entry text,
the remaining metadata, the synthetic id and the (squared L2)
distance. -/
structure ChunkResult where
  text : PyVal
  metadata : PyDict
  id : String
  distance : Int
deriving DecidableEq, Repr

/-- `VectorStore.search_similar(query_embedding, top_k)`; `none` for
`top_k` selects the configured default.  (Stored metadata entries
always carry a `text` key — see `metadata_entry` — so the model reads
it with a harmless default instead of raising `KeyError`.) -/
def search_similar (st : VectorStore) (query_embedding : List Int) (top_k : Option Nat) :
    Except PyErr (List ChunkResult) :=
  let k := top_k.getD TOP_K_CHUNKS
  if st.vectors.length = 0 then
    .ok []
  else if query_embedding.length ≠ st.dim then
    .error (.valueError ("Query embedding dimension mismatch: expected " ++ toString st.dim
      ++ ", got " ++ toString query_embedding.length))
  else
    .ok ((faissTopIdx st.vectors query_embedding (min k st.vectors.length)).filterMap
      (fun idx =>
        if idx < st.metadata.length then
          let entry := st.metadata.getD idx []
          some { text := dictGet entry "text" .pnone,
                 metadata := List.filter (fun kv : String × PyVal => kv.1 ≠ "text") entry,
                 id := "chunk_" ++ toString idx,
                 distance := sqDist query_embedding (st.vectors.getD idx []) }
        else none))

/-- `VectorStore.clear_collection`: replace the index and metadata by a
fresh empty pair (the durable persistence call is outside this model). -/
def clear_collection (st : VectorStore) : VectorStore :=
  { dim := st.dim, vectors := [], metadata := [] }

/-- `VectorStore.get_collection_count`. -/
def get_collection_count (st : VectorStore) : Nat := st.vectors.length

/-! Model of `text_chunker.py`. -/

/-- The chunker configuration (`config.CHUNK_SIZE`, `config.CHUNK_OVERLAP`). -/
structure ChunkerCfg where
  chunkSize : Nat
  chunkOverlap : Nat
deriving DecidableEq, Repr

/-- The default configuration values of `config.py` (`CHUNK_SIZE = 500`,
`CHUNK_OVERLAP = 50`). -/
def DEFAULT_CHUNKER_CFG : ChunkerCfg := { chunkSize := 500, chunkOverlap := 50 }

/-- One chunk produced by the sliding-window loop of
`TextChunker.chunk_text` (the `source_file` and `total_chunks` fields
are attached when the record is turned into a dictionary). -/
structure ChunkRec where
  text : List Char
  chunk_index : Nat
  start_char : Nat
  end_char : Nat
deriving DecidableEq, Repr

/-- The relative boundary-search start `int(self.chunk_size * 0.8)`.
The float product is modelled as the exact rational `4·cs/5` truncated;
the two agree at every configuration appearing in this development
(IEEE-754 `cs * 0.8` rounds to the exact product for e.g. 500 and 10). -/
def boundarySearchOff (cfg : ChunkerCfg) : Nat := cfg.chunkSize * 4 / 5

/-- The window-end selection of one loop iteration of `chunk_text`:
take `start + chunk_size`, and when that does not reach the end of the
text, search backward (from the 80% mark) for a double newline, a
newline, a sentence end, or a space, in that priority order. -/
def chunkEnd (cfg : ChunkerCfg) (t : List Char) (start : Nat) : Nat :=
  let e0 := start + cfg.chunkSize
  if e0 < t.length then
    let ct := sliceL t start e0
    let off := boundarySearchOff cfg
    match rfindFrom ct ['\n', '\n'] off with
    | some i => start + i + 2
    | none =>
      match rfindFrom ct ['\n'] off with
      | some i => start + i + 1
      | none =>
        match rfindFrom ct ['.', ' '] off with
        | some i => start + i + 2
        | none =>
          match rfindFrom ct [' '] off with
          | some i => start + i + 1
          | none => e0
  else e0

/-- The `while start < len(text)` loop of `chunk_text`, with an explicit
fuel counter: `none` means the fuel was exhausted, which (for the fuel
budget used by `chunkTextRecs`) happens exactly when the Python loop
fails to terminate.  The new start is `end - overlap` (all theorems
below operate at configurations and inputs where `end ≥ overlap`, so ℕ
subtraction agrees with Python's ℤ subtraction). -/
def chunkLoop (cfg : ChunkerCfg) (t : List Char) :
    Nat → Nat → Nat → List ChunkRec → Option (List ChunkRec)
  | 0, _, _, _ => none
  | fuel + 1, start, idx, acc =>
    if start < t.length then
      let e := chunkEnd cfg t start
      let acc' := acc ++ [{ text := stripL (sliceL t start e), chunk_index := idx,
                            start_char := start, end_char := e }]
      let start' := e - cfg.chunkOverlap
      if t.length ≤ start' then some acc'
      else chunkLoop cfg t fuel start' (idx + 1) acc'
    else some acc

/-- The sliding-window pass of `chunk_text` on the (already stripped)
text `t`, with fuel `t.length` — sufficient whenever every iteration
advances the window start, which the termination theorems below prove
for the configurations they cover. -/
def chunkTextRecs (cfg : ChunkerCfg) (t : List Char) : Option (List ChunkRec) :=
  chunkLoop cfg t t.length 0 0 []

/-- Python `source_file or "unknown"`. -/
def orUnknown (source_file : Option String) : String :=
  match source_file with
  | none => "unknown"
  | some s => if s = "" then "unknown" else s

/-- The per-chunk dictionary literal of the sliding-window branch of
`chunk_text`, before the metadata update and the `total_chunks`
second pass. -/
def chunkRecDict (r : ChunkRec) (sf : String) : PyDict :=
  [("text", .pstr (String.mk r.text)), ("chunk_index", .pint r.chunk_index),
   ("source_file", .pstr sf), ("start_char", .pint r.start_char),
   ("end_char", .pint r.end_char)]

/-- `TextChunker.chunk_text(text, source_file, metadata)`.  Returns
`none` when the underlying loop does not terminate (fuel exhaustion). -/
def chunk_text (cfg : ChunkerCfg) (text : String) (source_file : Option String)
    (metadata : PyDict) : Option (List PyDict) :=
  let t := stripL text.data
  if t = [] then some []
  else if t.length ≤ cfg.chunkSize then
    let base : PyDict := [("text", .pstr (String.mk t)), ("chunk_index", .pint 0),
      ("source_file", .pstr (orUnknown source_file)), ("total_chunks", .pint 1)]
    some [dictUpdate base metadata]
  else
    match chunkTextRecs cfg t with
    | none => none
    | some recs =>
      let n := recs.length
      some (recs.map (fun r =>
        dictSet (dictUpdate (chunkRecDict r (orUnknown source_file)) metadata)
          "total_chunks" (.pint n)))

/-- One document as produced by
`DocumentReader.get_records_with_metadata`: filename, stripped file
content, and the metadata dictionary `{filename, date, file_type}`. -/
structure RecordDoc where
  name : String
  content : String
  docMetadata : PyDict
deriving DecidableEq, Repr

/-- `TextChunker.chunk_documents(documents)`: chunk every document with
its name as source file, after stamping `document_name` into its
metadata. -/
def chunk_documents (cfg : ChunkerCfg) : List RecordDoc → Option (List PyDict)
  | [] => some []
  | d :: ds =>
    match chunk_text cfg d.content (some d.name)
        (dictSet d.docMetadata "document_name" (.pstr d.name)) with
    | none => none
    | some cs =>
      match chunk_documents cfg ds with
      | none => none
      | some rest => some (cs ++ rest)

/-! Model of `rag_service.py`.  The external collaborators — document
reader, embedder and Gemini generator — are opaque functions supplied
through `RAGEnv` (§6 of the design document); each may raise. -/

/-- The environment of external collaborators of `RAGService`. -/
structure RAGEnv where
  records : List RecordDoc
  allRecords : String
  embed : String → Except PyErr (List Int)
  embedBatch : List String → Except PyErr (List (List Int))
  gemini : String → String → Except PyErr String

/-- The dictionary returned by `RAGService.query`. -/
structure QueryResult where
  answer : String
  recommendations : List String
  sources : List PyVal
  needs_followup : Bool
  has_records : Bool
deriving DecidableEq, Repr

/-- The dictionary returned by `RAGService.ingest_documents`
(`vector_store_count` is present only in the success dictionary). -/
structure IngestResult where
  status : String
  message : String
  documents_processed : Nat
  chunks_created : Nat
  vector_store_count : Option Nat
deriving DecidableEq, Repr

/-- The dictionary returned by `RAGService.get_recommendations`. -/
structure RecResult where
  recommendations : List String
  sources : List PyVal
deriving DecidableEq, Repr

/-- `RAGService.ingest_documents(rebuild)`.  `none` marks chunker
non-termination; an `Except.error` is an exception escaping to the
caller (there is no handler in this method). -/
def ingest_documents (cfg : ChunkerCfg) (env : RAGEnv) (st : VectorStore) (rebuild : Bool) :
    Option (Except PyErr (IngestResult × VectorStore)) :=
  let st0 := if rebuild then clear_collection st else st
  if env.records = [] then
    some (.ok ({ status := "no_documents", message := "No medical records found to ingest",
                 documents_processed := 0, chunks_created := 0,
                 vector_store_count := none }, st0))
  else
    match chunk_documents cfg env.records with
    | none => none
    | some all_chunks =>
      if all_chunks = [] then
        some (.ok ({ status := "no_chunks", message := "No chunks created from documents",
                     documents_processed := env.records.length, chunks_created := 0,
                     vector_store_count := none }, st0))
      else
        match env.embedBatch (all_chunks.map (fun c => asString (dictGet c "text" (.pstr "")))) with
        | .error e => some (.error e)
        | .ok embeddings =>
          match add_documents st0 all_chunks embeddings with
          | (some e, _) => some (.error e)
          | (none, st1) =>
            some (.ok ({ status := "success",
                         message := "Successfully ingested " ++ toString env.records.length
                           ++ " documents",
                         documents_processed := env.records.length,
                         chunks_created := all_chunks.length,
                         vector_store_count := some (get_collection_count st1) }, st1))

/-- The system instruction of `RAGService.query`. -/
def QUERY_SYSTEM_TEXT : String :=
  "You are a medical assistant helping patients understand their medical records and general health questions. \nWhen answering questions:\n1. If the question can be answered from the patient's medical records, use that information and mention it came from their records\n2. If the question is NOT in the medical records, inform the user clearly: \"This information is not found in your medical records.\" Then IMMEDIATELY provide general medical information to answer the question - don't ask permission, just provide it\n3. For diet plan questions, use the patient's medical records (if available) to provide personalized diet recommendations based on their health conditions\n4. DO NOT provide recommendations directly in the answer - instead, at the end ask ONCE: \"Would you like me to provide recommendations based on this information?\"\n5. Be conversational, helpful, and empathetic\n6. Always include medical disclaimers that this is not a substitute for professional medical advice\n7. Cite which document the information came from when using specific records\n8. Answer questions directly and completely - don't ask multiple questions\n\nFormat your response:\n- First, state whether the information is in their records or not (if not in records, say so but then immediately provide the answer)\n- Provide the complete answer (from records if available, or general medical information if not)\n- At the end, ask ONCE: \"Would you like me to provide recommendations based on this information?\"\n- Include a medical disclaimer"

/-- The grounded-branch prompt of `RAGService.query`. -/
def groundedPrompt (question context : String) : String :=
  "Please answer this question: " ++ question
    ++ "\n\nRelevant Medical Records Sections:\n" ++ context
    ++ "\n\nInstructions:\n1. First confirm that this information is found in the patient's medical records\n2. Provide the complete answer based on the records above\n3. If the question is about diet plans, use the patient's health conditions from the records to provide personalized diet recommendations\n4. At the end, ask ONCE: \"Would you like me to provide recommendations based on your medical records?\"\n5. Include a medical disclaimer"

/-- The ungrounded-branch prompt of `RAGService.query`. -/
def ungroundedPrompt (question : String) : String :=
  "Please answer this question: " ++ question
    ++ "\n\nIMPORTANT: This information is NOT found in the patient's medical records.\n\nInstructions:\n1. First inform the user: \"This information is not found in your medical records.\"\n2. Then IMMEDIATELY provide the complete general medical information to answer the question - don't ask permission, just provide it\n3. If the question is about diet plans, provide a general diet plan that could help with the topic\n4. At the end, ask ONCE: \"Would you like me to provide recommendations based on this information?\"\n5. Include a medical disclaimer\n6. Be helpful and provide complete information"

/-- The fixed no-records answer returned by `query` when the lazy
ingestion does not succeed. -/
def NO_RECORDS_ANSWER : String :=
  "I don't have access to your medical records yet. Please upload your medical records first."

/-- The early-return dictionary of `query` when there are no records. -/
def noRecordsResult : QueryResult :=
  { answer := NO_RECORDS_ANSWER, recommendations := [], sources := [],
    needs_followup := false, has_records := false }

/-- One iteration of the context/source-collection loop shared by
`query` and `get_recommendations`: append the labeled chunk text to the
context parts and the chunk's source file to the source list unless
already present (first-seen order). -/
def sourceStep (acc : List String × List PyVal) (chunk : ChunkResult) :
    List String × List PyVal :=
  let sf := dictGet chunk.metadata "source_file" (.pstr "unknown")
  (acc.1 ++ ["[From " ++ pyStr sf ++ "]\n" ++ pyStr chunk.text],
   if sf ∈ acc.2 then acc.2 else acc.2 ++ [sf])

/-- The `if count == 0: ingest first` bootstrap shared by `query` and
`get_summary`; the boolean is true when the caller must early-return
its no-records result. -/
def lazy_ingest_check (cfg : ChunkerCfg) (env : RAGEnv) (st : VectorStore) :
    Option (Except PyErr (Bool × VectorStore)) :=
  if get_collection_count st = 0 then
    match ingest_documents cfg env st false with
    | none => none
    | some (.error e) => some (.error e)
    | some (.ok (ir, st1)) => some (.ok ((ir.status != "success"), st1))
  else some (.ok (false, st))

/-- The `try`-protected tail of `RAGService.query`: build the reply
dictionary from the generator outcome `g`, the collected sources and
the grounded flag (the Gemini call is the only statement inside the
`try`, and both branches return a dictionary rather than raising). -/
def queryFinish (g : Except PyErr String) (sources : List PyVal) (has_relevant_records : Bool)
    (st1 : VectorStore) : QueryResult × VectorStore :=
  match g with
  | .ok full_response =>
    let answer := pyStrip full_response
    let la := pyLower answer
    let needs_followup := containsSub la "would you like" || containsSub la "do you want"
      || containsSub la "can provide" || containsSub la "would you"
    ({ answer := answer, recommendations := [], sources := sources,
       needs_followup := needs_followup, has_records := has_relevant_records }, st1)
  | .error e =>
    ({ answer := "Error generating answer: " ++ e.msg, recommendations := [],
       sources := sources, needs_followup := false,
       has_records := has_relevant_records }, st1)

/-- `RAGService.query(question)`.  Only the Gemini call sits inside a
`try`; exceptions of the embedder and of the vector store escape as
`Except.error`. -/
def query (cfg : ChunkerCfg) (env : RAGEnv) (st : VectorStore) (question : String) :
    Option (Except PyErr (QueryResult × VectorStore)) :=
  match lazy_ingest_check cfg env st with
  | none => none
  | some (.error e) => some (.error e)
  | some (.ok (true, st1)) => some (.ok (noRecordsResult, st1))
  | some (.ok (false, st1)) =>
    match env.embed question with
    | .error e => some (.error e)
    | .ok question_embedding =>
      match search_similar st1 question_embedding none with
      | .error e => some (.error e)
      | .ok similar_chunks =>
        let has_relevant_records := decide (0 < similar_chunks.length)
        let cp := if has_relevant_records then similar_chunks.foldl sourceStep ([], [])
                  else ([], [])
        let context := if cp.1 = [] then "" else String.intercalate "\n\n" cp.1
        let prompt := if has_relevant_records then groundedPrompt question context
                      else ungroundedPrompt question
        some (.ok (queryFinish (env.gemini prompt QUERY_SYSTEM_TEXT) cp.2
          has_relevant_records st1))

/-- The fixed fallback recommendation of `get_recommendations`. -/
def FALLBACK_RECOMMENDATION : String :=
  "Please consult with your healthcare provider for personalized medical advice."

/-- The character set of `line.lstrip('-•*0123456789.) ')`. -/
def REC_STRIP_SET : List Char :=
  ['-', '•', '*', '0', '1', '2', '3', '4', '5', '6', '7', '8', '9', '.', ')', ' ']

/-- The marker test of the recommendation parser: the (stripped) line
starts with a bullet, or has more than two characters with a digit
first and `.` or `)` second. -/
def recMarker (line : String) : Bool :=
  startsWithChar line '-' || startsWithChar line '•' || startsWithChar line '*' ||
    (decide (2 < line.length) && (line.data.headD ' ').isDigit &&
      (line.data.getD 1 ' ' = '.' || line.data.getD 1 ' ' = ')'))

/-- One iteration of the recommendation-parsing loop of
`get_recommendations`: keep the marker-stripped line when it is
non-empty, free of the word "disclaimer" (case-insensitive) and
strictly longer than 10 characters. -/
def recLineStep (acc : List String) (line0 : String) : List String :=
  let line := pyStrip line0
  if (line != "") && recMarker line then
    let r := pyStrip (String.mk (line.data.dropWhile (fun c => REC_STRIP_SET.contains c)))
    if (r != "") && !containsSub (pyLower r) "disclaimer" && decide (10 < r.length) then
      acc ++ [r]
    else acc
  else acc

/-- The recommendation-parsing loop of `get_recommendations` over the
response split at newlines. -/
def parse_recommendation_lines (lines : List String) : List String :=
  lines.foldl recLineStep []

/-- The recommendations extracted from one generated response by
`get_recommendations`, with the fixed fallback when parsing yields
nothing. -/
def recommendations_of_response (full_response : String) : List String :=
  let recs := parse_recommendation_lines (pySplitLines full_response)
  if recs = [] then [FALLBACK_RECOMMENDATION] else recs

/-- Specification-shaped restatement of the per-line parse: the value
kept from one raw line, if any.  Written as a single-line function (to
be compared with the accumulator loop `recLineStep` the code uses). -/
def recLineKeep (line0 : String) : Option String :=
  let line := pyStrip line0
  if (line != "") && recMarker line then
    let r := pyStrip (String.mk (line.data.dropWhile (fun c => REC_STRIP_SET.contains c)))
    if (r != "") && !containsSub (pyLower r) "disclaimer" && decide (10 < r.length) then some r
    else none
  else none

/-- Specification-shaped restatement of the whole parse: the kept lines
in order, with the fixed fallback when none qualifies. -/
def recommendationsSpec (full_response : String) : List String :=
  let recs := (pySplitLines full_response).filterMap recLineKeep
  if recs = [] then [FALLBACK_RECOMMENDATION] else recs

/-- The system instruction of `get_recommendations`. -/
def REC_SYSTEM_TEXT : String :=
  "You are a medical assistant providing recommendations. \nProvide TWO types of recommendations:\n1. Medical record-based recommendations (specific to the patient's records and health conditions, if available)\n2. General health recommendations (best practices, lifestyle advice)\n\nFor diet plan questions, provide personalized diet recommendations based on the patient's specific health conditions from their records.\n\nFormat as a clear list. Always include a medical disclaimer."

/-- The record-based prompt of `get_recommendations`. -/
def recPromptRecords (question full_context : String) : String :=
  "Based on the following question and medical records, provide recommendations:\n\nQuestion: "
    ++ question ++ "\n\nMedical Records Sections:\n" ++ full_context
    ++ "\n\nPlease provide:\n1. Medical record-based recommendations (specific to this patient's health conditions)\n2. General health recommendations\n3. If this is about diet plans, provide a personalized diet plan based on the patient's health conditions\n4. Medical disclaimer"

/-- The general prompt of `get_recommendations`. -/
def recPromptGeneral (question : String) : String :=
  "Based on the following question, provide general health recommendations:\n\nQuestion: "
    ++ question
    ++ "\n\nPlease provide:\n1. General health recommendations\n2. If this is about diet plans, provide a general diet plan\n3. Medical disclaimer"

/-- `RAGService.get_recommendations(question, context_from_records)`. -/
def get_recommendations (env : RAGEnv) (st : VectorStore) (question : String)
    (context_from_records : Bool) : Except PyErr RecResult :=
  match env.embed question with
  | .error e => .error e
  | .ok question_embedding =>
    match search_similar st question_embedding none with
    | .error e => .error e
    | .ok similar_chunks =>
      let cp := similar_chunks.foldl sourceStep ([], [])
      let all_records := env.allRecords
      let context := if cp.1 = [] then "" else String.intercalate "\n\n" cp.1
      let prompt :=
        if context_from_records && ((context != "") || (all_records != "")) then
          let full_context :=
            if (all_records != "") && !containsSub all_records context then
              (if context != "" then context ++ "\n\nAll Medical Records:\n" ++ all_records
               else "All Medical Records:\n" ++ all_records)
            else context
          recPromptRecords question full_context
        else recPromptGeneral question
      match env.gemini prompt REC_SYSTEM_TEXT with
      | .ok full_response =>
        .ok { recommendations := recommendations_of_response full_response, sources := cp.2 }
      | .error e =>
        .ok { recommendations := ["Error generating recommendations: " ++ e.msg],
              sources := cp.2 }

/-- The system instruction of `GeminiService.summarize_medical_records`. -/
def SUMMARY_SYSTEM_TEXT : String :=
  "You are a medical assistant helping to summarize medical records. \nProvide a clear, concise summary that includes:\n- Key findings and diagnoses\n- Important dates and examinations\n- Current prescriptions or treatments\n- Any recommendations from doctors\n- Overall health status\n\nKeep the summary organized and easy to understand."

/-- `GeminiService.summarize_medical_records(text)`: its own handler
re-raises any generator failure wrapped in a summary-error message. -/
def summarize_medical_records (env : RAGEnv) (medical_records_text : String) :
    Except PyErr String :=
  if pyStrip medical_records_text = "" then .ok "No medical records found."
  else
    match env.gemini ("Please summarize the following medical records:\n\n"
        ++ medical_records_text) SUMMARY_SYSTEM_TEXT with
    | .ok s => .ok s
    | .error e => .error (.exception ("Error generating summary: " ++ e.msg))

/-- `RAGService.get_summary()`. -/
def get_summary (cfg : ChunkerCfg) (env : RAGEnv) (st : VectorStore) :
    Option (Except PyErr (String × VectorStore)) :=
  match lazy_ingest_check cfg env st with
  | none => none
  | some (.error e) => some (.error e)
  | some (.ok (true, st1)) => some (.ok ("No medical records found.", st1))
  | some (.ok (false, st1)) =>
    let medical_records := env.allRecords
    if pyStrip medical_records = "" then some (.ok ("No medical records found.", st1))
    else
      match summarize_medical_records env medical_records with
      | .ok summary => some (.ok (summary, st1))
      | .error e => some (.ok ("Error generating summary: " ++ e.msg, st1))

/-- Duplicate removal preserving first-seen order (the formalisation of
the citation-list deduplication claimed by the design document). -/
def dedupFirstSeen (l : List PyVal) : List PyVal :=
  l.foldl (fun acc x => if x ∈ acc then acc else acc ++ [x]) []

/-! Remaining definitions: the invariant predicates used by the chunker
theorems and concrete fixtures used by witnesses and counterexamples. -/

/-- Relation between two consecutive chunks of one document: the next
window starts `overlap` before the previous window ends, strictly
advances, and overlaps the previous span. -/
def spanStep (cfg : ChunkerCfg) (r r' : ChunkRec) : Prop :=
  r'.start_char = r.end_char - cfg.chunkOverlap ∧
    r.start_char < r'.start_char ∧ r'.start_char < r.end_char

/-- Shape invariant of the chunk list the sliding-window loop emits
from position `start` with first index `idx`: each chunk starts where
the loop said, stays within one window of `chunk_size`, makes strict
progress past the overlap, and the last chunk is the one whose
advanced start position reached the end of the text. -/
def chunkChain (cfg : ChunkerCfg) (tlen : Nat) : Nat → Nat → List ChunkRec → Prop
  | _, _, [] => False
  | start, idx, r :: rest =>
    r.start_char = start ∧ r.chunk_index = idx ∧
      r.end_char ≤ start + cfg.chunkSize ∧
      start + cfg.chunkOverlap < r.end_char ∧
      ((rest = [] ∧ tlen ≤ r.end_char - cfg.chunkOverlap) ∨
        (r.end_char - cfg.chunkOverlap < tlen ∧
          chunkChain cfg tlen (r.end_char - cfg.chunkOverlap) (idx + 1) rest))

/-- The all-zero 384-dimensional vector (the embedder returns one for
empty input). -/
def zeroVec384 : List Int := List.replicate 384 0

/-- A 384-dimensional vector far (squared L2 distance `384·10⁶`) from
`zeroVec384`. -/
def farVec384 : List Int := List.replicate 384 1000

/-- The metadata record of the one-chunk scenario of §8 of the design
document. -/
def oneEntryMeta : PyDict :=
  [("text", .pstr "Blood pressure: 120/80, normal."),
   ("source_file", .pstr "checkup_2024-01-10.txt"),
   ("chunk_index", .pint 0), ("total_chunks", .pint 1)]

/-- A store holding exactly one embedded chunk. -/
def one_entry_store : VectorStore :=
  { dim := 384, vectors := [zeroVec384], metadata := [oneEntryMeta] }

/-- A chunk dictionary whose `chunk_index` is `None`, so that
`int(chunk.get('chunk_index', 0))` raises `TypeError`. -/
def badIndexChunk : PyDict := [("chunk_index", PyVal.pnone)]

/-- A chunk dictionary whose `text` value is `None` (a non-scalar). -/
def noneTextChunk : PyDict := [("text", PyVal.pnone)]

/-- A chunk dictionary with a proper text and one non-scalar extra
field. -/
def extraFieldChunk : PyDict := [("text", PyVal.pstr "x"), ("extra", PyVal.pnone)]

/-- A well-formed single chunk dictionary. -/
def simpleChunk : PyDict := [("text", PyVal.pstr "x")]

/-- The configuration exhibiting the non-terminating chunker loop:
`chunk_size = 10`, `overlap = 9` (which satisfies
`0 ≤ overlap < chunk_size`). -/
def loopCfg : ChunkerCfg := { chunkSize := 10, chunkOverlap := 9 }

/-- The twelve-character text on which `chunk_text` with `loopCfg`
loops forever: the first window is cut at the space (end 9), and
`9 - 9 = 0` returns the window start to 0. -/
def loopText : List Char := "aaaaaaaa bcd".data

/-- A 501-character text (no whitespace), one character longer than the
default `chunk_size`. -/
def longText : List Char := List.replicate 501 'a'

/-- An environment with no documents to ingest (empty corpus); the
embedder and generator behave normally. -/
def envNoDocs : RAGEnv :=
  { records := [], allRecords := "",
    embed := fun _ => .ok zeroVec384,
    embedBatch := fun _ => .ok [],
    gemini := fun _ _ => .ok "General answer. Always consult your doctor." }

/-- An environment whose embedder raises on every call. -/
def envEmbedFail : RAGEnv :=
  { records := [], allRecords := "",
    embed := fun _ => .error (.exception "embedder down"),
    embedBatch := fun _ => .error (.exception "embedder down"),
    gemini := fun _ _ => .ok "OK answer." }

/-- An environment whose generator raises on every call (e.g. rate
limited after all retries); embedder works. -/
def envGeminiFail : RAGEnv :=
  { records := [], allRecords := "records text",
    embed := fun _ => .ok zeroVec384,
    embedBatch := fun ts => .ok (ts.map (fun _ => zeroVec384)),
    gemini := fun _ _ => .error (.exception "429 Too Many Requests") }

/-- An environment whose embedder places every query far away from the
stored vector of `one_entry_store` (squared distance `384·10⁶`): the
corpus shares no content with the question in any similarity sense. -/
def envFarQuery : RAGEnv :=
  { records := [], allRecords := "",
    embed := fun _ => .ok farVec384,
    embedBatch := fun ts => .ok (ts.map (fun _ => zeroVec384)),
    gemini := fun _ _ =>
      .ok "This information is not found in your medical records. Here is general information." }

/-- An environment whose embedder and generator both succeed with
benign outputs. -/
def envPlain : RAGEnv :=
  { records := [], allRecords := "",
    embed := fun _ => .ok zeroVec384,
    embedBatch := fun ts => .ok (ts.map (fun _ => zeroVec384)),
    gemini := fun _ _ => .ok "Answer from your records. Would you like more detail?" }

/-! Helper lemmas. -/

/-- A last-match fold returns an element satisfying the predicate. -/
theorem foldl_lastMatch {p : Nat → Bool} {xs : List Nat} {acc : Option Nat} {i : Nat}
    (hacc : ∀ j, acc = some j → p j = true)
    (h : xs.foldl (fun a x => if p x then some x else a) acc = some i) : p i = true := by
  induction xs generalizing acc with
  | nil => exact hacc i h
  | cons x xs ih =>
    simp only [List.foldl_cons] at h
    by_cases hc : p x = true
    · rw [if_pos hc] at h
      exact ih (fun j hj => by cases hj; exact hc) h
    · rw [if_neg hc] at h
      exact ih hacc h

/-- What a successful `rfind` guarantees: the hit is at or after the
search start and the needle occurs there. -/
theorem rfindFrom_spec {l sub : List Char} {start i : Nat}
    (h : rfindFrom l sub start = some i) :
    start ≤ i ∧ sub.isPrefixOf (l.drop i) = true := by
  unfold rfindFrom at h
  have := foldl_lastMatch (p := fun i => start ≤ i && sub.isPrefixOf (l.drop i))
    (fun j hj => by cases hj) h
  simpa using this

/-- A prefix is no longer than the list it is a prefix of. -/
theorem isPrefixOf_le_length {sub l : List Char} (h : sub.isPrefixOf l = true) :
    sub.length ≤ l.length :=
  (List.isPrefixOf_iff_prefix.mp h).length_le

/-- Inserting grows the length by one. -/
theorem length_insertBy {α : Type} (le : α → α → Bool) (x : α) (l : List α) :
    (insertBy le x l).length = l.length + 1 := by
  induction l with
  | nil => rfl
  | cons y ys ih => simp only [insertBy]; split <;> simp [ih]

/-- Sorting preserves the length. -/
theorem length_sortBy {α : Type} (le : α → α → Bool) (l : List α) :
    (sortBy le l).length = l.length := by
  induction l with
  | nil => rfl
  | cons x xs ih => simp [sortBy, length_insertBy, ih]

/-- Members after insertion were the inserted element or present before. -/
theorem mem_insertBy {α : Type} {le : α → α → Bool} {x a : α} {l : List α}
    (h : a ∈ insertBy le x l) : a = x ∨ a ∈ l := by
  induction l with
  | nil => simpa [insertBy] using h
  | cons y ys ih =>
    simp only [insertBy] at h
    split at h
    · simpa using h
    · simp only [List.mem_cons] at h
      rcases h with h | h
      · exact Or.inr (by simp [h])
      · rcases ih h with h | h
        · exact Or.inl h
        · exact Or.inr (by simp [h])

/-- Sorting introduces no new members. -/
theorem mem_sortBy {α : Type} {le : α → α → Bool} {a : α} {l : List α}
    (h : a ∈ sortBy le l) : a ∈ l := by
  induction l with
  | nil => simp [sortBy] at h
  | cons x xs ih =>
    simp only [sortBy] at h
    rcases mem_insertBy h with h | h
    · simp [h]
    · simp [ih h]

/-- Every index produced by the FAISS model is an index of a stored
vector, and exactly `min k n` indices are produced. -/
theorem faissTopIdx_spec (vecs : List (List Int)) (q : List Int) (k : Nat) :
    (faissTopIdx vecs q k).length = min k vecs.length ∧
      ∀ i ∈ faissTopIdx vecs q k, i < vecs.length := by
  constructor
  · simp [faissTopIdx, List.length_take, length_sortBy]
  · intro i hi
    have := mem_sortBy (List.mem_of_mem_take hi)
    simpa using this

/-- A `filterMap` whose function hits `some` on every member keeps the
length. -/
theorem length_filterMap_of_isSome {α β : Type} {f : α → Option β} {l : List α}
    (h : ∀ a ∈ l, (f a).isSome = true) : (l.filterMap f).length = l.length := by
  induction l with
  | nil => rfl
  | cons x xs ih =>
    have hx := h x (by simp)
    rcases Option.isSome_iff_exists.mp hx with ⟨b, hb⟩
    simp [List.filterMap_cons, hb, ih (fun a ha => h a (by simp [ha]))]

/-- On a store satisfying the length invariant, a search with a
query of the configured dimension succeeds and returns exactly
`min top_k n` results. -/
theorem search_similar_spec (st : VectorStore) (q : List Int) (tk : Option Nat)
    (hinv : storeInv st) (hq : q.length = st.dim) :
    ∃ res, search_similar st q tk = .ok res ∧
      res.length = min (tk.getD TOP_K_CHUNKS) st.vectors.length := by
  unfold search_similar
  by_cases hn : st.vectors.length = 0
  · refine ⟨[], ?_, ?_⟩
    · simp [hn]
    · simp [hn]
  · rw [if_neg hn, if_neg (by rw [hq]; exact fun h => h rfl)]
    refine ⟨_, rfl, ?_⟩
    have hfa := faissTopIdx_spec st.vectors q (min (tk.getD TOP_K_CHUNKS) st.vectors.length)
    rw [length_filterMap_of_isSome, hfa.1, Nat.min_assoc, Nat.min_self]
    intro i hi
    have : i < st.metadata.length := by
      rw [← hinv]; exact hfa.2 i hi
    simp [this]

/-- The metadata-append loop never touches the vectors or the
dimension. -/
theorem appendEntries_vectors : ∀ (chunks : List PyDict) (st : VectorStore),
    (appendEntries st chunks).2.vectors = st.vectors ∧ (appendEntries st chunks).2.dim = st.dim
  | [], _ => ⟨rfl, rfl⟩
  | c :: rest, st => by
    simp only [appendEntries]
    cases metadata_entry c with
    | error e => exact ⟨rfl, rfl⟩
    | ok entry => exact appendEntries_vectors rest _

/-- A metadata-append loop that raised no exception appended exactly
one record per chunk. -/
theorem appendEntries_none_length : ∀ (chunks : List PyDict) (st : VectorStore),
    (appendEntries st chunks).1 = none →
    (appendEntries st chunks).2.metadata.length = st.metadata.length + chunks.length
  | [], st, _ => by simp [appendEntries]
  | c :: rest, st, h => by
    simp only [appendEntries] at h ⊢
    cases hm : metadata_entry c with
    | error e => rw [hm] at h; simp at h
    | ok entry =>
      rw [hm] at h
      have ih := appendEntries_none_length rest
        { dim := st.dim, vectors := st.vectors, metadata := st.metadata ++ [entry] } h
      show (appendEntries
        { dim := st.dim, vectors := st.vectors, metadata := st.metadata ++ [entry] }
          rest).2.metadata.length = st.metadata.length + (c :: rest).length
      rw [ih]
      simp only [List.length_append, List.length_cons, List.length_nil]
      omega

/-- When every chunk's metadata record can be built, the append loop
raises nothing. -/
theorem appendEntries_none_of_ok : ∀ (chunks : List PyDict) (st : VectorStore),
    (∀ c ∈ chunks, (metadata_entry c).isOk = true) → (appendEntries st chunks).1 = none
  | [], _, _ => rfl
  | c :: rest, st, h => by
    simp only [appendEntries]
    cases hm : metadata_entry c with
    | error e =>
      have := h c (by simp)
      rw [hm] at this
      simp [Except.isOk, Except.toBool] at this
    | ok entry =>
      exact appendEntries_none_of_ok rest _ (fun d hd => h d (by simp [hd]))

/-- Every metadata record present after the append loop was present
before or was built by `metadata_entry` from one of the chunks. -/
theorem appendEntries_mem : ∀ (chunks : List PyDict) (st : VectorStore) (entry : PyDict),
    entry ∈ (appendEntries st chunks).2.metadata →
    entry ∈ st.metadata ∨ ∃ c ∈ chunks, metadata_entry c = .ok entry
  | [], st, entry, h => Or.inl h
  | c :: rest, st, entry, h => by
    simp only [appendEntries] at h
    cases hm : metadata_entry c with
    | error e => rw [hm] at h; exact Or.inl h
    | ok e0 =>
      rw [hm] at h
      rcases appendEntries_mem rest _ entry h with h1 | ⟨d, hd, hde⟩
      · simp only [List.mem_append, List.mem_singleton] at h1
        rcases h1 with h1 | h1
        · exact Or.inl h1
        · exact Or.inr ⟨c, by simp, by rw [hm, h1]⟩
      · exact Or.inr ⟨d, by simp [hd], hde⟩

/-- Every field of a built metadata record other than `text` holds a
scalar value. -/
theorem metadata_entry_scalar {c entry : PyDict} (h : metadata_entry c = .ok entry) :
    ∀ kv ∈ entry, kv.1 ≠ "text" → isScalar kv.2 = true := by
  unfold metadata_entry at h
  cases hci : pyToInt (dictGet c "chunk_index" (.pint 0)) with
  | error e => rw [hci] at h; cases h
  | ok ci =>
    rw [hci] at h
    cases htc : pyToInt (dictGet c "total_chunks" (.pint 1)) with
    | error e => rw [htc] at h; cases h
    | ok tc =>
      rw [htc] at h
      injection h with h2
      subst h2
      intro kv hkv hne
      rw [List.mem_append] at hkv
      rcases hkv with h1 | h1
      · fin_cases h1
        · exact absurd rfl hne
        · rfl
        · rfl
        · rfl
      · rcases List.mem_map.mp h1 with ⟨kv0, _, hkv0⟩
        rw [← hkv0]
        show isScalar (if isScalar kv0.2 = true then kv0.2 else PyVal.pstr (pyStr kv0.2)) = true
        by_cases hs : isScalar kv0.2 = true
        · rw [if_pos hs]; exact hs
        · rw [if_neg hs]; rfl

/-- `add_documents` either leaves the store untouched (early return or
validation failure) or, with the count check passed, runs the
vector-append followed by the metadata loop. -/
theorem add_documents_cases (st : VectorStore) (chunks : List PyDict)
    (embeddings : List (List Int)) :
    (add_documents st chunks embeddings).2 = st ∨
      (add_documents st chunks embeddings =
          appendEntries { st with vectors := st.vectors ++ embeddings } chunks ∧
        chunks.length = embeddings.length) := by
  unfold add_documents
  split_ifs with h1 h2 h3 h4
  · exact Or.inl rfl
  · exact Or.inl rfl
  · exact Or.inl rfl
  · exact Or.inl rfl
  · exact Or.inr ⟨rfl, by omega⟩

/-- A call of `add_documents` that raised nothing preserves the length
invariant. -/
theorem add_documents_inv_of_none (st : VectorStore) (chunks : List PyDict)
    (embeddings : List (List Int)) (hinv : storeInv st)
    (h : (add_documents st chunks embeddings).1 = none) :
    storeInv (add_documents st chunks embeddings).2 := by
  rcases add_documents_cases st chunks embeddings with hc | ⟨hc, hlen⟩
  · rw [hc]; exact hinv
  · rw [hc] at h ⊢
    have hv := appendEntries_vectors chunks { st with vectors := st.vectors ++ embeddings }
    have hm := appendEntries_none_length chunks _ h
    unfold storeInv at hinv ⊢
    rw [hv.1, hm]
    simp only [List.length_append]
    omega

/-- C1 (amended).  When both lists are non-empty, `add_documents` fails
with a count-mismatch `ValueError` if the lengths differ, and with a
`ValueError` (dimension mismatch, or the numpy ragged-array error) if
some vector's length is not the configured dimension — in each failure
the store (vectors and metadata alike) is left exactly as it was.
When either list is empty, however, the call returns silently with no
error and no mutation. -/
theorem C1_add_documents_validation :
    ∀ (st : VectorStore) (chunks : List PyDict) (embeddings : List (List Int)),
    ((chunks = [] ∨ embeddings = []) → add_documents st chunks embeddings = (none, st)) ∧
    (chunks ≠ [] → embeddings ≠ [] → chunks.length ≠ embeddings.length →
      ∃ m, add_documents st chunks embeddings = (some (.valueError m), st)) ∧
    (chunks ≠ [] → embeddings ≠ [] → chunks.length = embeddings.length →
      (∃ v ∈ embeddings, v.length ≠ st.dim) →
      ∃ m, add_documents st chunks embeddings = (some (.valueError m), st)) := by
  intro st chunks embeddings
  refine ⟨?_, ?_, ?_⟩
  · intro h
    unfold add_documents
    rw [if_pos h]
  · intro hc he hlen
    unfold add_documents
    rw [if_neg (by tauto), if_pos hlen]
    exact ⟨_, rfl⟩
  · intro hc he hlen hex
    rcases hex with ⟨v, hv, hvd⟩
    unfold add_documents
    split_ifs with h1 h2 h3 h4
    · exact absurd h1 (by tauto)
    · exact absurd hlen h2
    · exact ⟨_, rfl⟩
    · exact ⟨_, rfl⟩
    · exfalso
      have hsame : allSameLength embeddings = true := by simpa using h3
      have hvlen : v.length = (embeddings.headD []).length := by
        simpa using List.all_eq_true.mp hsame v hv
      have h4' : (embeddings.headD []).length = st.dim := by
        by_contra hne
        exact h4 hne
      rw [hvlen, h4'] at hvd
      exact hvd rfl

/-- C1 witness: two chunks with one embedding fail with a
count-mismatch `ValueError` and leave the empty store empty. -/
theorem C1_add_documents_validation_witness :
    ∃ m, add_documents empty_store [simpleChunk, simpleChunk] [zeroVec384] =
      (some (.valueError m), empty_store) :=
  (C1_add_documents_validation empty_store [simpleChunk, simpleChunk] [zeroVec384]).2.1
    (by decide) (by decide) (by decide)

/-- C1 counterexample: a non-empty chunk list paired with an empty
embedding list does not fail with a count-mismatch error — the call
returns silently (`if not chunks or not embeddings: return` precedes
the count check), contradicting the claim for this pair of lists. -/
theorem C1_counterexample : add_documents empty_store [simpleChunk] [] = (none, empty_store) := by
  decide

/-- C5 (amended).  The invariant `len(vectors) = len(metadata)` holds
for the fresh store, is preserved by `clear_collection`, and is
preserved by every `add_documents` call that raises no exception, as
well as by every call whose chunks all have coercible
`chunk_index`/`total_chunks` fields (in particular every validation
failure).  It is not preserved when a metadata `int()` coercion raises
after the vectors were already appended — see the counterexample.
(`search_similar` and `get_collection_count` are modelled as pure
functions of the store: they cannot mutate it.) -/
theorem C5_invariant_preservation :
    storeInv empty_store ∧
    (∀ st, storeInv st → storeInv (clear_collection st)) ∧
    (∀ (st : VectorStore) (chunks : List PyDict) (embeddings : List (List Int)),
      storeInv st → (add_documents st chunks embeddings).1 = none →
      storeInv (add_documents st chunks embeddings).2) ∧
    (∀ (st : VectorStore) (chunks : List PyDict) (embeddings : List (List Int)),
      storeInv st → (∀ c ∈ chunks, (metadata_entry c).isOk = true) →
      storeInv (add_documents st chunks embeddings).2) := by
  refine ⟨rfl, ?_, ?_, ?_⟩
  · intro st _
    rfl
  · intro st chunks embeddings hinv hnone
    exact add_documents_inv_of_none st chunks embeddings hinv hnone
  · intro st chunks embeddings hinv hok
    rcases add_documents_cases st chunks embeddings with hc | ⟨hc, hlen⟩
    · rw [hc]; exact hinv
    · have hnone : (add_documents st chunks embeddings).1 = none := by
        rw [hc]
        exact appendEntries_none_of_ok chunks _ hok
      exact add_documents_inv_of_none st chunks embeddings hinv hnone

/-- C5 witness: a well-formed add of one chunk and one vector keeps the
counts equal. -/
theorem C5_invariant_preservation_witness :
    storeInv (add_documents empty_store [simpleChunk] [zeroVec384]).2 :=
  (C5_invariant_preservation.2.2.2) empty_store [simpleChunk] [zeroVec384]
    (by decide) (by decide)

/-- C5 counterexample: a chunk whose `chunk_index` is `None` makes
`int()` raise after `index.add` has run: the call leaves one vector
and zero metadata records, breaking the invariant. -/
theorem C5_counterexample :
    (add_documents empty_store [badIndexChunk] [zeroVec384]).2.vectors.length = 1 ∧
    (add_documents empty_store [badIndexChunk] [zeroVec384]).2.metadata.length = 0 := by
  decide

/-- C10 (amended).  Every metadata record appended by `add_documents`
holds scalar values in every field except `text`: `source_file` is
coerced through `str()`, the two counters through `int()`, and extra
fields are kept when scalar and rendered through `str()` otherwise.
The `text` field, however, is stored verbatim without coercion, so a
non-scalar `text` value does enter the store — see the
counterexample. -/
theorem C10_metadata_scalars :
    ∀ (st : VectorStore) (chunks : List PyDict) (embeddings : List (List Int)),
    ∀ entry ∈ (add_documents st chunks embeddings).2.metadata,
      entry ∈ st.metadata ∨ ∀ kv ∈ entry, kv.1 ≠ "text" → isScalar kv.2 = true := by
  intro st chunks embeddings entry hentry
  rcases add_documents_cases st chunks embeddings with hc | ⟨hc, _⟩
  · rw [hc] at hentry
    exact Or.inl hentry
  · rw [hc] at hentry
    rcases appendEntries_mem chunks _ entry hentry with h1 | ⟨c, _, hcm⟩
    · exact Or.inl h1
    · exact Or.inr (metadata_entry_scalar hcm)

/-- C10 witness: the record built from a chunk with a proper text and a
`None` extra field has only scalar values outside `text` (the extra is
stored as the string rendering of `None`). -/
theorem C10_metadata_scalars_witness :
    ("extra", PyVal.pstr "None") ∈
        ((add_documents empty_store [extraFieldChunk] [zeroVec384]).2.metadata.headD []) ∧
      isScalar (PyVal.pstr "None") = true :=
  ⟨by decide,
   (C10_metadata_scalars empty_store [extraFieldChunk] [zeroVec384]
       [("text", PyVal.pstr "x"), ("source_file", PyVal.pstr "unknown"),
        ("chunk_index", PyVal.pint 0), ("total_chunks", PyVal.pint 1),
        ("extra", PyVal.pstr "None")] (by decide)).resolve_left (by decide)
     ("extra", PyVal.pstr "None") (by decide) (by decide)⟩

/-- C10 counterexample: a chunk whose `text` value is `None` stores a
non-scalar `text` field in the appended metadata record (`text` is the
one field taken without coercion). -/
theorem C10_counterexample :
    dictGet ((add_documents empty_store [noneTextChunk] [zeroVec384]).2.metadata.headD [])
        "text" (.pstr "") = PyVal.pnone ∧
      isScalar PyVal.pnone = false := by
  decide

/-- C3 (confirmed).  On an empty index every search returns the empty
list without error; on an index holding `n` entries (with the length
invariant) a search with `top_k = k` and a query of the configured
dimension returns exactly `min k n` results: fewer than `k` when
`n < k`, and all `n` when `k ≥ n`. -/
theorem C3_search_clamps :
    ∀ (st : VectorStore) (q : List Int) (k : Nat),
    (st.vectors.length = 0 → search_similar st q (some k) = .ok []) ∧
    (storeInv st → q.length = st.dim →
      ∃ res, search_similar st q (some k) = .ok res ∧
        res.length = min k st.vectors.length ∧
        (st.vectors.length < k → res.length < k) ∧
        (st.vectors.length ≤ k → res.length = st.vectors.length)) := by
  intro st q k
  constructor
  · intro h
    unfold search_similar
    rw [if_pos h]
  · intro hinv hq
    rcases search_similar_spec st q (some k) hinv hq with ⟨res, hres, hlen⟩
    refine ⟨res, hres, by simpa using hlen, ?_, ?_⟩
    · intro hlt
      rw [hlen]
      simp only [Option.getD_some]
      omega
    · intro hge
      rw [hlen]
      simp only [Option.getD_some]
      omega

/-- C3 witness: empty-index search returns `[]`, and a search with
`k = 5` on a one-entry store returns exactly one result. -/
theorem C3_search_clamps_witness :
    search_similar empty_store zeroVec384 (some 5) = .ok [] ∧
      ∃ res, search_similar one_entry_store zeroVec384 (some 5) = .ok res ∧
        res.length = min 5 one_entry_store.vectors.length ∧
        (one_entry_store.vectors.length < 5 → res.length < 5) ∧
        (one_entry_store.vectors.length ≤ 5 → res.length = one_entry_store.vectors.length) :=
  ⟨(C3_search_clamps empty_store zeroVec384 5).1 (by decide),
   (C3_search_clamps one_entry_store zeroVec384 5).2 (by decide) (by decide)⟩

/-- The loop body of the recommendation parser appends exactly what the
single-line classifier keeps. -/
theorem recLineStep_eq (acc : List String) (l : String) :
    recLineStep acc l = acc ++ (recLineKeep l).toList := by
  simp only [recLineStep, recLineKeep]
  split_ifs <;> simp

/-- The recommendation-parsing loop is the filter of the single-line
classifier over the lines. -/
theorem foldl_recLineStep_eq : ∀ (lines : List String) (acc : List String),
    lines.foldl recLineStep acc = acc ++ lines.filterMap recLineKeep
  | [], acc => by simp
  | l :: ls, acc => by
    rw [List.foldl_cons, recLineStep_eq, foldl_recLineStep_eq ls, List.filterMap_cons]
    cases h : recLineKeep l <;> simp [h]

/-- C7 (amended).  The recommendation parse keeps, in order, exactly
the stripped lines that start with a bullet marker `-`, `•`, `*`, or
(for lines longer than two characters) a digit followed by `.` or `)`;
from each it removes every leading character of the set
`-•*0123456789.) ` and strips again, then keeps the residue only when
it is non-empty, free of the word "disclaimer" (case-insensitive), and
strictly longer than 10 characters — a residue of exactly 10
characters is discarded, not kept; when nothing qualifies the single
fixed fallback string is substituted. -/
theorem C7_parse_recommendations :
    ∀ full_response, recommendations_of_response full_response =
      recommendationsSpec full_response := by
  intro s
  unfold recommendations_of_response recommendationsSpec parse_recommendation_lines
  rw [foldl_recLineStep_eq]
  simp

/-- C7 counterexample: a bullet line whose stripped recommendation is
exactly 10 characters long is discarded (`len(rec) > 10` is strict),
so the parse yields the fallback rather than keeping it — the claim
says a 10-character recommendation is kept. -/
theorem C7_counterexample :
    recommendations_of_response "- abcdefghij" = [FALLBACK_RECOMMENDATION] ∧
      ¬ ("abcdefghij" ∈ recommendations_of_response "- abcdefghij") ∧
      ("abcdefghij" : String).length = 10 := by
  decide

/-- The source accumulator of the shared context loop is the running
first-seen deduplication of the chunks' source files. -/
theorem foldl_sourceStep_snd : ∀ (l : List ChunkResult) (acc : List String × List PyVal),
    (l.foldl sourceStep acc).2 =
      (l.map (fun c => dictGet c.metadata "source_file" (.pstr "unknown"))).foldl
        (fun a x => if x ∈ a then a else a ++ [x]) acc.2
  | [], _ => rfl
  | c :: cs, acc => by
    rw [List.foldl_cons, List.map_cons, List.foldl_cons, foldl_sourceStep_snd cs]
    rfl

/-- The source list built by `query` equals the first-seen
deduplication of the retrieved chunks' source files (also when nothing
was retrieved and the loop was skipped). -/
theorem query_sources_eq (similar : List ChunkResult) :
    (if decide (0 < similar.length) = true
        then similar.foldl sourceStep (([] : List String), ([] : List PyVal))
        else ([], [])).2 =
      dedupFirstSeen (similar.map (fun c => dictGet c.metadata "source_file" (.pstr "unknown"))) := by
  by_cases h : 0 < similar.length
  · rw [if_pos (by simpa using h), foldl_sourceStep_snd]
    rfl
  · have hnil : similar = [] := by
      cases similar with
      | nil => rfl
      | cons a l => simp at h
    subst hnil
    rfl

/-- The reply builder returns the state it was given. -/
theorem queryFinish_eta (g : Except PyErr String) (s : List PyVal) (h : Bool)
    (st1 : VectorStore) : queryFinish g s h st1 = ((queryFinish g s h st1).1, st1) := by
  cases g <;> rfl

/-- Whatever the generator outcome, the reply carries the given
sources, an empty recommendation list, and the given grounded flag. -/
theorem queryFinish_fields (g : Except PyErr String) (s : List PyVal) (h : Bool)
    (st1 : VectorStore) :
    (queryFinish g s h st1).1.sources = s ∧ (queryFinish g s h st1).1.recommendations = [] ∧
      (queryFinish g s h st1).1.has_records = h := by
  cases g <;> exact ⟨rfl, rfl, rfl⟩

/-- C4 (confirmed).  On a non-empty index, whenever the embedder and
the search succeed, `query` returns a result whose grounded flag is
true exactly when retrieval returned at least one chunk, whose source
list is the retrieved chunks' source filenames deduplicated in
first-seen order, and whose recommendation list is empty — for every
generator outcome, success or failure. -/
theorem C4_query_result :
    ∀ (cfg : ChunkerCfg) (env : RAGEnv) (st : VectorStore) (question : String)
      (qe : List Int) (similar : List ChunkResult),
    st.vectors.length ≠ 0 →
    env.embed question = .ok qe →
    search_similar st qe none = .ok similar →
    ∃ r, query cfg env st question = some (.ok (r, st)) ∧
      (r.has_records = true ↔ 0 < similar.length) ∧
      r.sources = dedupFirstSeen
        (similar.map (fun c => dictGet c.metadata "source_file" (.pstr "unknown"))) ∧
      r.recommendations = [] := by
  intro cfg env st question qe similar hne hembed hsearch
  have h0 : ¬ get_collection_count st = 0 := hne
  unfold query lazy_ingest_check
  rw [if_neg h0]
  simp only [hembed, hsearch]
  rw [queryFinish_eta]
  refine ⟨_, rfl, ?_, ?_, ?_⟩
  · rw [(queryFinish_fields _ _ _ _).2.2]
    simp
  · rw [(queryFinish_fields _ _ _ _).1]
    exact query_sources_eq similar
  · exact (queryFinish_fields _ _ _ _).2.1

/-- C4 witness: the §8 scenario — one stored chunk, a matching
question — yields a grounded result citing the one source file. -/
theorem C4_query_result_witness :
    ∃ r, query DEFAULT_CHUNKER_CFG envPlain one_entry_store "What was my blood pressure?" =
        some (.ok (r, one_entry_store)) ∧
      (r.has_records = true ↔ 0 < ([⟨PyVal.pstr "Blood pressure: 120/80, normal.",
          [("source_file", PyVal.pstr "checkup_2024-01-10.txt"), ("chunk_index", PyVal.pint 0),
           ("total_chunks", PyVal.pint 1)], "chunk_0", 0⟩] : List ChunkResult).length) ∧
      r.sources = dedupFirstSeen (([⟨PyVal.pstr "Blood pressure: 120/80, normal.",
          [("source_file", PyVal.pstr "checkup_2024-01-10.txt"), ("chunk_index", PyVal.pint 0),
           ("total_chunks", PyVal.pint 1)], "chunk_0", 0⟩] : List ChunkResult).map
            (fun c => dictGet c.metadata "source_file" (.pstr "unknown"))) ∧
      r.recommendations = [] :=
  C4_query_result DEFAULT_CHUNKER_CFG envPlain one_entry_store "What was my blood pressure?"
    zeroVec384
    [⟨PyVal.pstr "Blood pressure: 120/80, normal.",
      [("source_file", PyVal.pstr "checkup_2024-01-10.txt"), ("chunk_index", PyVal.pint 0),
       ("total_chunks", PyVal.pint 1)], "chunk_0", 0⟩]
    (by decide) rfl (by decide)

/-- C8 (amended).  Of the externally visible operations only the
generator call is guarded: when the generator raises, `query`,
`get_recommendations` and `get_summary` each return a descriptive
result instead of propagating (given a working embedder and non-empty
index); embedder and vector-store failures, however, have no handler
and escape to the caller — see the counterexample. -/
theorem C8_generator_degradation :
    ∀ (cfg : ChunkerCfg) (env : RAGEnv) (st : VectorStore) (question : String)
      (qe : List Int) (e : PyErr),
    (∀ p s, env.gemini p s = .error e) →
    st.vectors.length ≠ 0 →
    storeInv st →
    env.embed question = .ok qe →
    qe.length = st.dim →
    (∃ r, query cfg env st question = some (.ok (r, st)) ∧
        r.answer = "Error generating answer: " ++ e.msg) ∧
    (∃ rr, get_recommendations env st question true = .ok rr ∧
        rr.recommendations = ["Error generating recommendations: " ++ e.msg]) ∧
    (pyStrip env.allRecords ≠ "" →
        get_summary cfg env st = some (.ok ("Error generating summary: "
          ++ ("Error generating summary: " ++ e.msg), st))) := by
  intro cfg env st question qe e hg hne hinv hembed hdim
  obtain ⟨similar, hsearch, hlen⟩ := search_similar_spec st qe none hinv hdim
  have h0 : ¬ get_collection_count st = 0 := hne
  refine ⟨?_, ?_, ?_⟩
  · unfold query lazy_ingest_check
    rw [if_neg h0]
    simp only [hembed, hsearch, hg]
    rw [queryFinish_eta]
    exact ⟨_, rfl, rfl⟩
  · unfold get_recommendations
    simp only [hembed, hsearch, hg]
    exact ⟨_, rfl, rfl⟩
  · intro hrec
    unfold get_summary lazy_ingest_check summarize_medical_records
    rw [if_neg h0]
    simp only [hg]
    rw [if_neg hrec, if_neg hrec]
    rfl

/-- C8 witness: with a rate-limited generator and one stored chunk,
all three operations degrade to their descriptive error results. -/
theorem C8_generator_degradation_witness :
    (∃ r, query DEFAULT_CHUNKER_CFG envGeminiFail one_entry_store "q" =
        some (.ok (r, one_entry_store)) ∧
        r.answer = "Error generating answer: " ++ (PyErr.exception "429 Too Many Requests").msg) ∧
    (∃ rr, get_recommendations envGeminiFail one_entry_store "q" true = .ok rr ∧
        rr.recommendations = ["Error generating recommendations: "
          ++ (PyErr.exception "429 Too Many Requests").msg]) ∧
    (pyStrip envGeminiFail.allRecords ≠ "" →
        get_summary DEFAULT_CHUNKER_CFG envGeminiFail one_entry_store =
          some (.ok ("Error generating summary: " ++ ("Error generating summary: "
            ++ (PyErr.exception "429 Too Many Requests").msg), one_entry_store))) :=
  C8_generator_degradation DEFAULT_CHUNKER_CFG envGeminiFail one_entry_store "q" zeroVec384
    (.exception "429 Too Many Requests") (fun _ _ => rfl) (by decide) (by decide) rfl (by decide)

/-- C8 counterexample: an embedder failure during `query` is not
caught anywhere — the exception propagates to the caller instead of
becoming a descriptive result, contradicting the claim for the
embedder failure case. -/
theorem C8_counterexample :
    query DEFAULT_CHUNKER_CFG envEmbedFail one_entry_store "q" =
      some (.error (.exception "embedder down")) := by
  decide

/-- C9 (amended).  The grounded flag comes back false exactly on the
no-records early return: with an empty corpus, `query` answers with
the fixed non-empty no-records string and `has_records = false`.  On
any non-empty index, however, the flat search returns `min(3, n) ≥ 1`
chunks whatever the distances — there is no relevance threshold — so
`has_records` is true even when the corpus shares nothing with the
question. -/
theorem C9_ungrounded_fallback :
    (∀ (cfg : ChunkerCfg) (env : RAGEnv) (question : String), env.records = [] →
      query cfg env empty_store question = some (.ok (noRecordsResult, empty_store)) ∧
      noRecordsResult.has_records = false ∧ noRecordsResult.answer ≠ "") ∧
    (∀ (cfg : ChunkerCfg) (env : RAGEnv) (st : VectorStore) (question : String)
      (qe : List Int),
      st.vectors.length ≠ 0 → storeInv st →
      env.embed question = .ok qe → qe.length = st.dim →
      ∃ r, query cfg env st question = some (.ok (r, st)) ∧ r.has_records = true) := by
  constructor
  · intro cfg env question hrec
    refine ⟨?_, by decide, by decide⟩
    unfold query lazy_ingest_check ingest_documents
    rw [hrec]
    rfl
  · intro cfg env st question qe hne hinv hembed hdim
    obtain ⟨similar, hsearch, hlen⟩ := search_similar_spec st qe none hinv hdim
    have hpos : 0 < similar.length := by
      rw [hlen]
      simp only [Option.getD_none]
      have : st.vectors.length ≠ 0 := hne
      unfold TOP_K_CHUNKS
      omega
    have h0 : ¬ get_collection_count st = 0 := hne
    unfold query lazy_ingest_check
    rw [if_neg h0]
    simp only [hembed, hsearch]
    rw [queryFinish_eta]
    refine ⟨_, rfl, ?_⟩
    rw [(queryFinish_fields _ _ _ _).2.2]
    simpa using hpos

/-- C9 witness: the empty corpus gives the fixed ungrounded fallback,
and a far-away query on a one-entry store still comes back grounded. -/
theorem C9_ungrounded_fallback_witness :
    (query DEFAULT_CHUNKER_CFG envNoDocs empty_store "q" =
        some (.ok (noRecordsResult, empty_store)) ∧
      noRecordsResult.has_records = false ∧ noRecordsResult.answer ≠ "") ∧
    (∃ r, query DEFAULT_CHUNKER_CFG envPlain one_entry_store "q" =
        some (.ok (r, one_entry_store)) ∧ r.has_records = true) :=
  ⟨C9_ungrounded_fallback.1 DEFAULT_CHUNKER_CFG envNoDocs "q" rfl,
   C9_ungrounded_fallback.2 DEFAULT_CHUNKER_CFG envPlain one_entry_store "q" zeroVec384
     (by decide) (by decide) rfl (by decide)⟩

/-- C9 counterexample: the stored vector is at squared distance
`384·10⁶` from the query embedding — content unrelated to the question
by any similarity measure — yet the result is grounded
(`has_records = true`), where the claim requires the flag to be
false for a corpus with no matching content. -/
theorem C9_counterexample :
    (match query DEFAULT_CHUNKER_CFG envFarQuery one_entry_store "How do car engines work?" with
      | some (.ok (r, _)) => r.has_records
      | _ => false) = true ∧
    sqDist farVec384 zeroVec384 = 384000000 := by
  constructor
  · rfl
  · decide

/-- C2 (code bug).  At `chunk_size = 10`, `overlap = 9` — a
configuration with `0 ≤ overlap < chunk_size` — and the text
`"aaaaaaaa bcd"`, the boundary search cuts the first window at the
space (end 9) and the next start is `9 − 9 = 0`: the window start
does not advance, the `start >= len(text)` safety check never fires,
and the loop never terminates (no fuel suffices), so `chunk_text`
diverges where the specification promises termination. -/
theorem C2_chunker_nontermination :
    (∀ (fuel idx : Nat) (acc : List ChunkRec),
      chunkLoop loopCfg loopText fuel 0 idx acc = none) ∧
    chunk_text loopCfg "aaaaaaaa bcd" (some "doc") [] = none := by
  constructor
  · intro fuel
    induction fuel with
    | zero => intro idx acc; rfl
    | succ f ih =>
      intro idx acc
      have step : chunkLoop loopCfg loopText (f + 1) 0 idx acc =
          chunkLoop loopCfg loopText f 0 (idx + 1)
            (acc ++ [{ text := stripL (sliceL loopText 0 9), chunk_index := idx,
                       start_char := 0, end_char := 9 }]) := rfl
      rw [step]
      exact ih (idx + 1) _
  · decide

/-- Length of a Python slice. -/
theorem sliceL_length {α : Type} (l : List α) (a b : Nat) :
    (sliceL l a b).length = min b l.length - a := by
  simp [sliceL]

/-- The 80%-mark is strictly inside a positive window. -/
theorem boundarySearchOff_lt (cfg : ChunkerCfg) (h : 1 ≤ cfg.chunkSize) :
    boundarySearchOff cfg < cfg.chunkSize := by
  unfold boundarySearchOff
  rw [Nat.div_lt_iff_lt_mul (by norm_num)]
  omega

/-- A boundary hit inside a full-size window lies at or after the
80%-mark and fits (with its marker) inside the window. -/
theorem rfind_slice_bound {cfg : ChunkerCfg} {t : List Char} {start : Nat}
    {sub : List Char} {i : Nat} (hsub : sub ≠ [])
    (h : start + cfg.chunkSize < t.length)
    (hf : rfindFrom (sliceL t start (start + cfg.chunkSize)) sub (boundarySearchOff cfg)
      = some i) :
    boundarySearchOff cfg ≤ i ∧ i + sub.length ≤ cfg.chunkSize := by
  obtain ⟨hge, hpre⟩ := rfindFrom_spec hf
  have hlen := isPrefixOf_le_length hpre
  rw [List.length_drop] at hlen
  have hslice : (sliceL t start (start + cfg.chunkSize)).length = cfg.chunkSize := by
    rw [sliceL_length]
    omega
  rw [hslice] at hlen
  have hs1 : 1 ≤ sub.length := List.length_pos.mpr hsub
  exact ⟨hge, by omega⟩

/-- Bounds on the selected window end: it always lies strictly past
the 80%-mark of the window and never past the raw window end. -/
theorem chunkEnd_bounds (cfg : ChunkerCfg) (t : List Char) (start : Nat)
    (hcs : 1 ≤ cfg.chunkSize) :
    start + boundarySearchOff cfg + 1 ≤ chunkEnd cfg t start ∧
      chunkEnd cfg t start ≤ start + cfg.chunkSize := by
  have hbss : boundarySearchOff cfg < cfg.chunkSize := boundarySearchOff_lt cfg hcs
  simp only [chunkEnd]
  split_ifs with h
  · cases h1 : rfindFrom (sliceL t start (start + cfg.chunkSize)) ['\n', '\n']
        (boundarySearchOff cfg) with
    | some i =>
      obtain ⟨hge, hub⟩ := rfind_slice_bound (by decide) h h1
      have hub2 : i + 2 ≤ cfg.chunkSize := by simpa using hub
      show start + boundarySearchOff cfg + 1 ≤ start + i + 2 ∧
        start + i + 2 ≤ start + cfg.chunkSize
      omega
    | none =>
      cases h2 : rfindFrom (sliceL t start (start + cfg.chunkSize)) ['\n']
          (boundarySearchOff cfg) with
      | some i =>
        obtain ⟨hge, hub⟩ := rfind_slice_bound (by decide) h h2
        have hub2 : i + 1 ≤ cfg.chunkSize := by simpa using hub
        show start + boundarySearchOff cfg + 1 ≤ start + i + 1 ∧
          start + i + 1 ≤ start + cfg.chunkSize
        omega
      | none =>
        cases h3 : rfindFrom (sliceL t start (start + cfg.chunkSize)) ['.', ' ']
            (boundarySearchOff cfg) with
        | some i =>
          obtain ⟨hge, hub⟩ := rfind_slice_bound (by decide) h h3
          have hub2 : i + 2 ≤ cfg.chunkSize := by simpa using hub
          show start + boundarySearchOff cfg + 1 ≤ start + i + 2 ∧
            start + i + 2 ≤ start + cfg.chunkSize
          omega
        | none =>
          cases h4 : rfindFrom (sliceL t start (start + cfg.chunkSize)) [' ']
              (boundarySearchOff cfg) with
          | some i =>
            obtain ⟨hge, hub⟩ := rfind_slice_bound (by decide) h h4
            have hub2 : i + 1 ≤ cfg.chunkSize := by simpa using hub
            show start + boundarySearchOff cfg + 1 ≤ start + i + 1 ∧
              start + i + 1 ≤ start + cfg.chunkSize
            omega
          | none =>
            show start + boundarySearchOff cfg + 1 ≤ start + cfg.chunkSize ∧
              start + cfg.chunkSize ≤ start + cfg.chunkSize
            omega
  · constructor <;> omega

/-- With a positive overlap not exceeding the 80%-mark (true of the
default 500/50 configuration), every loop iteration advances the
window start, so the loop terminates within `t.length` iterations and
its output satisfies the chunk-chain invariant. -/
theorem chunkLoop_spec (cfg : ChunkerCfg) (t : List Char)
    (hov1 : 1 ≤ cfg.chunkOverlap) (hov : cfg.chunkOverlap ≤ boundarySearchOff cfg) :
    ∀ (fuel start idx : Nat) (acc : List ChunkRec),
      start < t.length → t.length - start ≤ fuel →
      ∃ recs, chunkLoop cfg t fuel start idx acc = some (acc ++ recs) ∧
        chunkChain cfg t.length start idx recs := by
  have hcs : 1 ≤ cfg.chunkSize := by
    rcases Nat.eq_zero_or_pos cfg.chunkSize with h0 | h0
    · exfalso
      have hz : boundarySearchOff cfg = 0 := by
        unfold boundarySearchOff
        rw [h0]
      omega
    · exact h0
  intro fuel
  induction fuel with
  | zero =>
    intro start idx acc hstart hfuel
    omega
  | succ f ih =>
    intro start idx acc hstart hfuel
    have hb := chunkEnd_bounds cfg t start hcs
    simp only [chunkLoop]
    rw [if_pos hstart]
    by_cases hterm : t.length ≤ chunkEnd cfg t start - cfg.chunkOverlap
    · rw [if_pos hterm]
      refine ⟨[{ text := stripL (sliceL t start (chunkEnd cfg t start)), chunk_index := idx,
                 start_char := start, end_char := chunkEnd cfg t start }], rfl, ?_⟩
      exact ⟨rfl, rfl, hb.2,
        by show start + cfg.chunkOverlap < chunkEnd cfg t start; omega,
        Or.inl ⟨rfl, hterm⟩⟩
    · rw [if_neg hterm]
      push_neg at hterm
      have hfuel2 : t.length - (chunkEnd cfg t start - cfg.chunkOverlap) ≤ f := by omega
      obtain ⟨recs, hrecs, hchain⟩ := ih (chunkEnd cfg t start - cfg.chunkOverlap) (idx + 1)
        (acc ++ [{ text := stripL (sliceL t start (chunkEnd cfg t start)), chunk_index := idx,
                   start_char := start, end_char := chunkEnd cfg t start }]) hterm hfuel2
      refine ⟨{ text := stripL (sliceL t start (chunkEnd cfg t start)), chunk_index := idx,
                start_char := start, end_char := chunkEnd cfg t start } :: recs, ?_, ?_⟩
      · rw [hrecs]
        simp
      · exact ⟨rfl, rfl, hb.2,
          by show start + cfg.chunkOverlap < chunkEnd cfg t start; omega,
          Or.inr ⟨hterm, hchain⟩⟩

/-- The chunk chain covers every position of the text from its start
position on. -/
theorem chunkChain_cover (cfg : ChunkerCfg) (tlen : Nat) :
    ∀ (recs : List ChunkRec) (start idx : Nat),
    chunkChain cfg tlen start idx recs →
    ∀ p, start ≤ p → p < tlen → ∃ r ∈ recs, r.start_char ≤ p ∧ p < r.end_char := by
  intro recs
  induction recs with
  | nil =>
    intro start idx h
    simp only [chunkChain] at h
  | cons r rest ih =>
    intro start idx h p hsp hp
    simp only [chunkChain] at h
    obtain ⟨hs, hi, hub, hprog, hrest⟩ := h
    rcases hrest with ⟨hnil, hterm⟩ | ⟨hcont, hchain⟩
    · subst hnil
      exact ⟨r, by simp, by omega, by omega⟩
    · by_cases hpe : p < r.end_char
      · exact ⟨r, by simp, by omega, hpe⟩
      · push_neg at hpe
        obtain ⟨r2, hr2, hss⟩ := ih _ _ hchain p (by omega) hp
        exact ⟨r2, by simp [hr2], hss⟩

/-- Consecutive chunks in the chain satisfy the overlapping-span
relation. -/
theorem chunkChain_chain' (cfg : ChunkerCfg) (tlen : Nat) (hov1 : 1 ≤ cfg.chunkOverlap) :
    ∀ (recs : List ChunkRec) (start idx : Nat),
    chunkChain cfg tlen start idx recs → List.Chain' (spanStep cfg) recs := by
  intro recs
  induction recs with
  | nil =>
    intro start idx _
    exact List.chain'_nil
  | cons r rest ih =>
    intro start idx h
    simp only [chunkChain] at h
    obtain ⟨hs, hi, hub, hprog, hrest⟩ := h
    rcases hrest with ⟨hnil, _⟩ | ⟨hcont, hchain⟩
    · subst hnil
      simp
    · have hc2 := ih _ _ hchain
      cases rest with
      | nil => simp
      | cons r2 rest2 =>
        refine List.Chain'.cons ?_ hc2
        simp only [chunkChain] at hchain
        obtain ⟨hs2, _, _, _, _⟩ := hchain
        exact ⟨by rw [hs2], by omega, by omega⟩

/-- The last chunk of the chain ends at or past the end of the text. -/
theorem chunkChain_last (cfg : ChunkerCfg) (tlen : Nat) :
    ∀ (recs : List ChunkRec) (start idx : Nat),
    chunkChain cfg tlen start idx recs →
    ∃ r, recs.getLast? = some r ∧ tlen ≤ r.end_char := by
  intro recs
  induction recs with
  | nil =>
    intro start idx h
    simp only [chunkChain] at h
  | cons r rest ih =>
    intro start idx h
    simp only [chunkChain] at h
    obtain ⟨hs, hi, hub, hprog, hrest⟩ := h
    rcases hrest with ⟨hnil, hterm⟩ | ⟨hcont, hchain⟩
    · subst hnil
      exact ⟨r, rfl, by omega⟩
    · obtain ⟨r2, hr2, hend⟩ := ih _ _ hchain
      cases rest with
      | nil => simp only [chunkChain] at hchain
      | cons r3 rest3 =>
        exact ⟨r2, by rw [List.getLast?_cons_cons]; exact hr2, hend⟩

/-- C6 (amended).  For every text whose stripped length exceeds
`chunk_size` (under a positive overlap not exceeding the 80%-mark, as
in the default 500/50 configuration) the sliding-window pass
terminates and its chunks cover the whole text; each consecutive pair
of spans overlaps (the next starts `overlap` before the previous
ends, strictly advancing); and the final chunk's recorded `end_char`
is at least — not equal to — the text length: the loop stores the
un-clamped window end, which overshoots, so equality fails (see the
counterexample). -/
theorem C6_chunk_coverage :
    ∀ (cfg : ChunkerCfg) (text : String) (source_file : Option String) (metadata : PyDict),
    1 ≤ cfg.chunkOverlap → cfg.chunkOverlap ≤ boundarySearchOff cfg →
    cfg.chunkSize < (stripL text.data).length →
    ∃ recs, chunkTextRecs cfg (stripL text.data) = some recs ∧
      chunk_text cfg text source_file metadata =
        some (recs.map (fun r =>
          dictSet (dictUpdate (chunkRecDict r (orUnknown source_file)) metadata)
            "total_chunks" (.pint recs.length))) ∧
      (∀ p, p < (stripL text.data).length →
        ∃ r ∈ recs, r.start_char ≤ p ∧ p < r.end_char) ∧
      List.Chain' (spanStep cfg) recs ∧
      (∃ r, recs.getLast? = some r ∧ (stripL text.data).length ≤ r.end_char) := by
  intro cfg text sf md hov1 hov hlen
  obtain ⟨recs, hloop, hchain⟩ := chunkLoop_spec cfg (stripL text.data) hov1 hov
    ((stripL text.data).length) 0 0 [] (by omega) (by omega)
  have hctr : chunkTextRecs cfg (stripL text.data) = some recs := by
    unfold chunkTextRecs
    rw [hloop]
    simp
  refine ⟨recs, hctr, ?_, ?_, ?_, ?_⟩
  · have h1 : ¬ (stripL text.data = []) := by
      intro hnil
      rw [hnil] at hlen
      simp at hlen
    have h2 : ¬ ((stripL text.data).length ≤ cfg.chunkSize) := by omega
    simp only [chunk_text]
    rw [if_neg h1, if_neg h2, hctr]
  · intro p hp
    exact chunkChain_cover cfg _ recs 0 0 hchain p (by omega) hp
  · exact chunkChain_chain' cfg _ hov1 recs 0 0 hchain
  · exact chunkChain_last cfg _ recs 0 0 hchain

/-- C6 witness: a 12-character text at `chunk_size = 10`,
`overlap = 2` is covered by overlapping chunks whose last end offset
reaches past the text length. -/
theorem C6_chunk_coverage_witness :
    ∃ recs, chunkTextRecs ⟨10, 2⟩ (stripL ("aaaaaaaaaaaa" : String).data) = some recs ∧
      chunk_text ⟨10, 2⟩ "aaaaaaaaaaaa" (some "doc") [] =
        some (recs.map (fun r =>
          dictSet (dictUpdate (chunkRecDict r (orUnknown (some "doc"))) [])
            "total_chunks" (.pint recs.length))) ∧
      (∀ p, p < (stripL ("aaaaaaaaaaaa" : String).data).length →
        ∃ r ∈ recs, r.start_char ≤ p ∧ p < r.end_char) ∧
      List.Chain' (spanStep ⟨10, 2⟩) recs ∧
      (∃ r, recs.getLast? = some r ∧
        (stripL ("aaaaaaaaaaaa" : String).data).length ≤ r.end_char) :=
  C6_chunk_coverage ⟨10, 2⟩ "aaaaaaaaaaaa" (some "doc") [] (by decide) (by decide) (by decide)

/-- C6 counterexample: at the default configuration (500/50), a
501-character text yields a final chunk whose recorded `end_char` is
950, not the text length 501 — the claim's equality fails. -/
theorem C6_counterexample :
    (((chunkTextRecs DEFAULT_CHUNKER_CFG longText).getD []).getLast?.map
        (fun r => r.end_char)) = some 950 ∧
      longText.length = 501 ∧ (950 : Nat) ≠ 501 := by
  decide
